import Mathlib

/-!
Verification of the Arduino-Uno `micros()` demo program.

The program keeps a 32-bit microsecond accumulator (`MICROS_COUNTER`),
incremented by `MICROS_INCREMENT` on each timer compare-match interrupt
(`TIMER0_COMPA`), read by `micros()`, and reset by `micros_init`, which
also configures timer registers (CTC mode, compare threshold, prescaler,
interrupt enable).  The main loop echoes each received serial byte
together with the current reading.

The embedding represents u32 values as natural numbers reduced modulo
2^32 (Rust release-mode wrapping semantics for `+`, truncating `/`, and
`as u8` truncation as `% 256`), the panic in `micros_init` as `Option`,
and the register file as an explicit record.
-/

/-- Rust: `const PRESCALER: u32 = 8;` -/
def PRESCALER : Nat := 8

/-- Rust: `const TIMER_COUNTS: u32 = 2;` -/
def TIMER_COUNTS : Nat := 2

/-- The expression `PRESCALER * TIMER_COUNTS / 16` from the source,
with the two configuration constants as parameters so that every row of
the source's configuration table can be evaluated.  u32 multiplication
and truncating division; no operand in the table comes near 2^32. -/
def microsIncrement (prescaler timerCounts : Nat) : Nat :=
  prescaler * timerCounts / 16

/-- Rust: `const MICROS_INCREMENT: u32 = PRESCALER * TIMER_COUNTS / 16;` -/
def MICROS_INCREMENT : Nat := microsIncrement PRESCALER TIMER_COUNTS

/-- The clock-select field values written to TCCR0B, one per arm of the
`match PRESCALER` in `micros_init`. -/
inductive CS0 where
  | prescale_8
  | prescale_64
  | prescale_256
  | prescale_1024
deriving DecidableEq, Repr

/-- The `match PRESCALER` in `micros_init`: the four supported divisors
select a clock-prescale setting, anything else hits `_ => panic!()`
(modelled as `none`). -/
def cs0Select (prescaler : Nat) : Option CS0 :=
  match prescaler with
  | 8 => some CS0.prescale_8
  | 64 => some CS0.prescale_64
  | 256 => some CS0.prescale_256
  | 1024 => some CS0.prescale_1024
  | _ => none

/-- Program state: the shared accumulator cell `MICROS_COUNTER`
(a u32, kept `< 2^32` by every writer) and the TC0 registers written by
`micros_init`. -/
structure MachineState where
  microsCounter : Nat
  tccr0a_wgm_ctc : Bool
  ocr0a : Nat
  tccr0b_cs0 : Option CS0
  timsk0_ocie0a : Bool
deriving DecidableEq, Repr

/-- State at program start: the static initializer
`Mutex::new(Cell::new(0))` puts 0 in the accumulator, and the AVR timer
registers reset to 0 / cleared. -/
def initialState : MachineState :=
  { microsCounter := 0
    tccr0a_wgm_ctc := false
    ocr0a := 0
    tccr0b_cs0 := none
    timsk0_ocie0a := false }

/-- `fn micros_init(tc0: TC0)` with the two configuration constants as
parameters: set CTC mode, write `TIMER_COUNTS as u8` to OCR0A, select
the prescaler (panicking — `none` — on an unsupported divisor), enable
the compare-match interrupt, and reset the shared counter to 0 inside
`interrupt::free`. -/
def microsInitGen (prescaler timerCounts : Nat) (s : MachineState) :
    Option MachineState :=
  match cs0Select prescaler with
  | none => none
  | some cs =>
      some { s with
        tccr0a_wgm_ctc := true
        ocr0a := timerCounts % 256
        tccr0b_cs0 := some cs
        timsk0_ocie0a := true
        microsCounter := 0 }

/-- `micros_init` at the source's configured constants. -/
def micros_init (s : MachineState) : Option MachineState :=
  microsInitGen PRESCALER TIMER_COUNTS s

/-- The `TIMER0_COMPA` interrupt handler body with the increment as a
parameter: inside `interrupt::free`, read the counter cell and write
back `counter + MICROS_INCREMENT` (u32 wrapping addition). -/
def timer0CompaGen (microsIncr : Nat) (s : MachineState) : MachineState :=
  { s with microsCounter := (s.microsCounter + microsIncr) % 2 ^ 32 }

/-- `fn TIMER0_COMPA()` at the source's configured `MICROS_INCREMENT`. -/
def TIMER0_COMPA (s : MachineState) : MachineState :=
  timer0CompaGen MICROS_INCREMENT s

/-- `fn micros() -> u32`: inside `interrupt::free`, return the counter
cell's value.  Returned together with the (unchanged) state so that the
absence of side effects is part of the definition's codomain. -/
def micros (s : MachineState) : Nat × MachineState :=
  (s.microsCounter, s)

/-- One iteration of the `loop` in `main` after a byte `b` arrives:
`let time = micros(); uwriteln!(serial, "Got \x7b\x7d after \x7b\x7d us!\r", b, time)`.
`uwriteln!` renders both arguments in decimal and appends a newline
after the format string's trailing carriage return. -/
def serve (s : MachineState) (b : Nat) : String × MachineState :=
  let time := (micros s).1
  ("Got " ++ Nat.repr b ++ " after " ++ Nat.repr time ++ " us!" ++ "\r\n",
    (micros s).2)

/-- The operations that touch program state: timer initialization, one
interrupt-handler invocation, one `micros()` read, and one serve-loop
iteration on a received byte. -/
inductive Op where
  | init
  | tick
  | read
  | serveByte (b : Nat)
deriving DecidableEq, Repr

/-- The effect of each operation on the program state (`none` = panic). -/
def step (op : Op) (s : MachineState) : Option MachineState :=
  match op with
  | Op.init => micros_init s
  | Op.tick => some (TIMER0_COMPA s)
  | Op.read => some (micros s).2
  | Op.serveByte b => some (serve s b).2

/-! ## Helper lemmas -/

/-- Counter value after `N` consecutive interrupt-handler invocations. -/
theorem timer0_iterate (N : Nat) (s : MachineState)
    (h : s.microsCounter < 2 ^ 32) :
    ((TIMER0_COMPA^[N]) s).microsCounter =
      (s.microsCounter + N * MICROS_INCREMENT) % 2 ^ 32 := by
  induction N with
  | zero => simpa using (Nat.mod_eq_of_lt h).symm
  | succ n ih =>
      rw [Function.iterate_succ_apply']
      show ((TIMER0_COMPA^[n] s).microsCounter + MICROS_INCREMENT) % 2 ^ 32 = _
      rw [ih, Nat.mod_add_mod, Nat.succ_mul, Nat.add_assoc]

/-- The value component of a `micros` read is the accumulator. -/
theorem micros_fst (s : MachineState) : (micros s).1 = s.microsCounter :=
  rfl

/-- A successful `microsInitGen` writes `timerCounts % 256` (the
`as u8` truncation) to OCR0A. -/
theorem microsInitGen_some_ocr0a (p tc : Nat) (s s' : MachineState)
    (h : microsInitGen p tc s = some s') : s'.ocr0a = tc % 256 := by
  unfold microsInitGen at h
  split at h
  · exact absurd h (by simp)
  · injection h with h
    rw [← h]

/-! ## Claim theorems -/

/-- C1: Each `TIMER0_COMPA` invocation reads the accumulator and writes
back `current + MICROS_INCREMENT` (mod 2^32); after `N` consecutive
invocations from value `V < 2^32` the reader observes
`(V + N * MICROS_INCREMENT) % 2^32`; and with the source's configured
PRESCALER = 8, TIMER_COUNTS = 2 (so MICROS_INCREMENT = 1), 1000 triggers
after `micros_init` yield a reading of exactly 1000. -/
theorem handler_accumulates :
    (∀ s : MachineState,
        (TIMER0_COMPA s).microsCounter =
          (s.microsCounter + MICROS_INCREMENT) % 2 ^ 32) ∧
    (∀ (s : MachineState) (N : Nat), s.microsCounter < 2 ^ 32 →
        (micros ((TIMER0_COMPA^[N]) s)).1 =
          (s.microsCounter + N * MICROS_INCREMENT) % 2 ^ 32) ∧
    (∀ s s' : MachineState, micros_init s = some s' →
        (micros ((TIMER0_COMPA^[1000]) s')).1 = 1000) := by
  refine ⟨fun s => rfl, fun s N h => timer0_iterate N s h, ?_⟩
  intro s s' h
  have h0 : s'.microsCounter = 0 := by
    injection h with h
    rw [← h]
  rw [micros_fst, timer0_iterate 1000 s' (by rw [h0]; decide), h0]
  decide

/-- Witness for C1 at concrete inputs: three steps from the reset state,
and 1000 steps from the state `micros_init` produces. -/
theorem handler_accumulates_witness :
    (micros ((TIMER0_COMPA^[3]) initialState)).1 =
      (initialState.microsCounter + 3 * MICROS_INCREMENT) % 2 ^ 32 ∧
    (micros ((TIMER0_COMPA^[1000])
        (⟨0, true, 2, some CS0.prescale_8, true⟩ : MachineState))).1 = 1000 :=
  ⟨handler_accumulates.2.1 initialState 3 (by decide),
   handler_accumulates.2.2 initialState
     ⟨0, true, 2, some CS0.prescale_8, true⟩ rfl⟩

/-- C2: Accumulator overflow in the handler is not an error: with
increment 2, one invocation from `u32::MAX - 1 = 2^32 - 2` leaves the
accumulator at 0 (silent wrap), and the handler is total (no panic) with
the result always a valid u32 (no saturation at `u32::MAX`). -/
theorem overflow_wraps :
    (timer0CompaGen 2
        { initialState with microsCounter := 2 ^ 32 - 2 }).microsCounter = 0 ∧
    (∀ s : MachineState, (timer0CompaGen 2 s).microsCounter < 2 ^ 32) := by
  constructor
  · decide
  · intro s
    show (s.microsCounter + 2) % 2 ^ 32 < 2 ^ 32
    exact Nat.mod_lt _ (by norm_num)

/-- C3: `MICROS_INCREMENT = PRESCALER * TIMER_COUNTS / 16` exactly, with
zero remainder, and every configuration row of the source's table yields
the advertised integer increment. -/
theorem increment_table :
    MICROS_INCREMENT = PRESCALER * TIMER_COUNTS / 16 ∧
    PRESCALER * TIMER_COUNTS % 16 = 0 ∧
    microsIncrement 8 2 = 1 ∧ 8 * 2 % 16 = 0 ∧
    microsIncrement 64 250 = 1000 ∧ 64 * 250 % 16 = 0 ∧
    microsIncrement 256 125 = 2000 ∧ 256 * 125 % 16 = 0 ∧
    microsIncrement 256 250 = 4000 ∧ 256 * 250 % 16 = 0 ∧
    microsIncrement 1024 125 = 8000 ∧ 1024 * 125 % 16 = 0 ∧
    microsIncrement 1024 250 = 16000 ∧ 1024 * 250 % 16 = 0 := by
  decide

/-- C4: a prescale divisor outside 8, 64, 256, 1024 makes
initialization hit `panic!()` (modelled `none`) instead of configuring
anything; each supported divisor selects its prescale setting and
initialization succeeds. -/
theorem prescaler_panic :
    (∀ p : Nat, p ∉ ([8, 64, 256, 1024] : List Nat) →
        ∀ (tc : Nat) (s : MachineState), microsInitGen p tc s = none) ∧
    cs0Select 8 = some CS0.prescale_8 ∧
    cs0Select 64 = some CS0.prescale_64 ∧
    cs0Select 256 = some CS0.prescale_256 ∧
    cs0Select 1024 = some CS0.prescale_1024 ∧
    (∀ (tc : Nat) (s : MachineState),
        (microsInitGen 8 tc s).isSome = true ∧
        (microsInitGen 64 tc s).isSome = true ∧
        (microsInitGen 256 tc s).isSome = true ∧
        (microsInitGen 1024 tc s).isSome = true) := by
  refine ⟨?_, rfl, rfl, rfl, rfl, fun tc s => ⟨rfl, rfl, rfl, rfl⟩⟩
  intro p hp tc s
  have hcs : cs0Select p = none := by
    unfold cs0Select
    split <;> simp_all
  unfold microsInitGen
  rw [hcs]

/-- Witness for C4: divisor 3 is rejected. -/
theorem prescaler_panic_witness :
    microsInitGen 3 2 initialState = none :=
  prescaler_panic.1 3 (by decide) 2 initialState

/-- C5: each serve-loop iteration emits exactly
`Got <b> after <t> us!` followed by carriage return and newline, with
both numbers in decimal; byte 65 at reading 12345 gives the exact line. -/
theorem serve_output :
    (∀ (s : MachineState) (b : Nat),
        (serve s b).1 =
          "Got " ++ Nat.repr b ++ " after " ++ Nat.repr s.microsCounter
            ++ " us!" ++ "\r\n") ∧
    (∀ s : MachineState, s.microsCounter = 12345 →
        (serve s 65).1 = "Got 65 after 12345 us!\r\n") := by
  constructor
  · intro s b
    rfl
  · intro s h
    simp only [serve, micros, h]
    rfl

/-- Witness for C5 at a concrete state holding 12345 microseconds. -/
theorem serve_output_witness :
    (serve (⟨12345, false, 0, none, false⟩ : MachineState) 65).1 =
      "Got 65 after 12345 us!\r\n" :=
  serve_output.2 ⟨12345, false, 0, none, false⟩ rfl

/-- C6: `micros_init` succeeds from every state and resets the
accumulator to 0; running it again from the resulting state still leaves
the accumulator at 0 (idempotent effect on the accumulator). -/
theorem init_resets :
    ∀ s : MachineState, ∃ s' : MachineState,
      micros_init s = some s' ∧ s'.microsCounter = 0 ∧
      ∃ s'' : MachineState, micros_init s' = some s'' ∧
        s''.microsCounter = 0 :=
  fun _ => ⟨_, rfl, rfl, _, rfl, rfl⟩

/-- C7: `micros()` returns the current accumulator value, never fails
(it is total), and changes no program state. -/
theorem micros_pure_read :
    ∀ s : MachineState, (micros s).1 = s.microsCounter ∧ (micros s).2 = s :=
  fun _ => ⟨rfl, rfl⟩

/-- C8: the counter is non-decreasing across a handler step whenever the
sum does not reach 2^32 (wraparound is the only exception), and among the
program's operations only initialization and the handler can change the
counter. -/
theorem counter_monotone_and_exclusive :
    (∀ s : MachineState, s.microsCounter + MICROS_INCREMENT < 2 ^ 32 →
        s.microsCounter ≤ (TIMER0_COMPA s).microsCounter) ∧
    (∀ (op : Op) (s s' : MachineState), step op s = some s' →
        s'.microsCounter ≠ s.microsCounter → op = Op.init ∨ op = Op.tick) := by
  constructor
  · intro s h
    show s.microsCounter ≤ (s.microsCounter + MICROS_INCREMENT) % 2 ^ 32
    rw [Nat.mod_eq_of_lt h]
    exact Nat.le_add_right _ _
  · intro op s s' hstep hne
    cases op with
    | init => exact Or.inl rfl
    | tick => exact Or.inr rfl
    | read =>
        injection hstep with h
        exact absurd (congrArg MachineState.microsCounter h.symm) hne
    | serveByte b =>
        injection hstep with h
        exact absurd (congrArg MachineState.microsCounter h.symm) hne

/-- Witness for C8: one handler step from reset does not decrease the
counter, and an `init` step that changes the counter is classified as
`init`. -/
theorem counter_monotone_and_exclusive_witness :
    initialState.microsCounter ≤ (TIMER0_COMPA initialState).microsCounter ∧
    (Op.init = Op.init ∨ Op.init = Op.tick) :=
  ⟨counter_monotone_and_exclusive.1 initialState (by decide),
   counter_monotone_and_exclusive.2 Op.init
     (⟨5, false, 0, none, false⟩ : MachineState)
     (⟨0, true, 2, some CS0.prescale_8, true⟩ : MachineState)
     rfl (by decide)⟩

/-- C9: the static initializer leaves the accumulator at 0 before
`micros_init` ever runs, so a `micros()` call in the start state is
well-defined and returns 0. -/
theorem initial_counter_zero :
    initialState.microsCounter = 0 ∧ (micros initialState).1 = 0 :=
  ⟨rfl, rfl⟩

/-- C10: the OCR0A write truncates `TIMER_COUNTS` to 8 bits
(`% 256`), and for every `TIMER_COUNTS` in the source's table (2, 125,
250) the truncation is the identity, so the byte written equals
`TIMER_COUNTS` exactly. -/
theorem ocr0a_truncation :
    (∀ (p tc : Nat) (s s' : MachineState), microsInitGen p tc s = some s' →
        s'.ocr0a = tc % 256) ∧
    (∀ tc ∈ ([2, 125, 250] : List Nat), tc % 256 = tc) ∧
    (∀ tc ∈ ([2, 125, 250] : List Nat), ∀ s s' : MachineState,
        microsInitGen 8 tc s = some s' → s'.ocr0a = tc) := by
  refine ⟨fun p tc s s' h => microsInitGen_some_ocr0a p tc s s' h,
    by decide, ?_⟩
  intro tc htc s s' h
  rw [microsInitGen_some_ocr0a 8 tc s s' h]
  fin_cases htc <;> rfl

/-- Witness for C10: `micros_init`-style writes at table values 2 and
125 land unchanged in OCR0A. -/
theorem ocr0a_truncation_witness :
    ((⟨0, true, 2, some CS0.prescale_8, true⟩ : MachineState).ocr0a
        = 2 % 256) ∧
    ((⟨0, true, 125, some CS0.prescale_8, true⟩ : MachineState).ocr0a
        = 125) :=
  ⟨ocr0a_truncation.1 8 2 initialState
      ⟨0, true, 2, some CS0.prescale_8, true⟩ rfl,
   ocr0a_truncation.2.2 125 (by decide) initialState
      ⟨0, true, 125, some CS0.prescale_8, true⟩ rfl⟩
